import Mathlib

/-!
Verification of the AI-Visibility-Report query pipeline.

The development shallowly embeds the brand-rank detection pipeline
(`src/lib/openrouter.ts`), the batch processor (`src/lib/batch-processor.ts`)
and the metrics module (`lib/metrics.ts`).  JavaScript strings are embedded as
`List Char`; the relevant pieces of the JavaScript string API (`toLowerCase`,
`trim`, `includes`, `split(/\s+/)`, regex replacement of punctuation and of
word-bounded city names) are given explicit executable definitions below.
External HTTP calls are embedded by passing the call's outcome as an explicit
argument, so the functions that react to those outcomes stay pure and total.
-/

set_option maxRecDepth 100000

namespace AIVis

/-- A JavaScript string, embedded as its list of characters. -/
abbrev JSStr := List Char

/-- JS regex `\w` character class (ASCII letters, digits, underscore). -/
def isWordChar (c : Char) : Bool := c.isAlpha || c.isDigit || c == '_'

/-- JS regex `\s` character class restricted to the ASCII whitespace used here. -/
def isSpaceJS (c : Char) : Bool :=
  c == ' ' || c == '\t' || c == '\n' || c == '\r' || c == '\x0b' || c == '\x0c'

/-- `s.toLowerCase()` (ASCII). -/
def lowerJS (s : JSStr) : JSStr := s.map Char.toLower

/-- `s.toUpperCase()` (ASCII). -/
def upperJS (s : JSStr) : JSStr := s.map Char.toUpper

/-- `s.trim()`. -/
def trimJS (s : JSStr) : JSStr :=
  ((s.dropWhile isSpaceJS).reverse.dropWhile isSpaceJS).reverse

/-- `s.replace(/[^\w\s]/g, '')` — drop punctuation, keep word chars and spaces. -/
def cleanPunct (s : JSStr) : JSStr := s.filter (fun c => isWordChar c || isSpaceJS c)

/-- `s.includes(t)`: `t` occurs as a contiguous substring of `s`. -/
def includesJS : JSStr → JSStr → Bool
  | s, t =>
    if t.isPrefixOf s then true
    else match s with
      | [] => false
      | _ :: rest => includesJS rest t

/-- Helper for `split(/\s+/)`: `some cur` accumulates the current (reversed)
segment, `none` means we are inside a whitespace run that has already emitted
its preceding segment. -/
def jsSplitWsAux : Option JSStr → JSStr → List JSStr
  | none, [] => [[]]
  | some cur, [] => [cur.reverse]
  | none, c :: rest =>
      if isSpaceJS c then jsSplitWsAux none rest else jsSplitWsAux (some [c]) rest
  | some cur, c :: rest =>
      if isSpaceJS c then cur.reverse :: jsSplitWsAux none rest
      else jsSplitWsAux (some (c :: cur)) rest

/-- `s.split(/\s+/)`: like JS, a leading (resp. trailing) whitespace run yields
a leading (resp. trailing) empty segment, and `"".split(/\s+/) = [""]`. -/
def jsSplitWs (s : JSStr) : List JSStr := jsSplitWsAux (some []) s

/-- One step test for replacing a whole word: `word` occurs at the head of
`rest` with a word boundary on each side (`prev` is the character just before
`rest` in the original string, `none` at the start). -/
def wordAtHead (word : JSStr) (prev : Option Char) (rest : JSStr) : Bool :=
  word.isPrefixOf rest &&
    (match prev with | none => true | some c => !(isWordChar c)) &&
    (match rest.drop word.length with | [] => true | c :: _ => !(isWordChar c))

/-- `s.replace(new RegExp('\\b' + word + '\\b', 'gi'), '')` for the lower-cased
strings used by the matcher (both the text and the word are already
lower-case, so the case-insensitive flag is immaterial).  `fuel` is an upper
bound on the number of scanning steps; it is instantiated with the length of
the string, which always suffices for the nonempty city-name words used. -/
def replaceWordAux (word : JSStr) : Nat → Option Char → JSStr → JSStr
  | 0, _, s => s
  | _ + 1, _, [] => []
  | fuel + 1, prev, c :: rest =>
      if wordAtHead word prev (c :: rest) then
        replaceWordAux word fuel (some (word.getLastD c)) ((c :: rest).drop word.length)
      else
        c :: replaceWordAux word fuel (some c) rest

/-- Replace every word-bounded occurrence of `word` in `s` by the empty string. -/
def replaceWordAll (word : JSStr) (s : JSStr) : JSStr :=
  replaceWordAux word (s.length + 1) none s

/-- First capture of `s.match(/\(([^)]+)\)/)`: the contents of the first
parenthesised group containing at least one non-`)` character. -/
def parenCapture : JSStr → Option JSStr
  | [] => none
  | c :: rest =>
      if c == '(' then
        let cap := rest.takeWhile (fun d => !(d == ')'))
        if cap.isEmpty then parenCapture rest
        else match rest.drop cap.length with
          | ')' :: _ => some cap
          | _ => parenCapture rest
      else parenCapture rest

/-- The fixed city-name list shared by `detectBrandInAnswer` and `getAcronym`
(`src/lib/openrouter.ts`). -/
def cityNames : List JSStr :=
  ["delhi".toList, "mumbai".toList, "bangalore".toList, "chennai".toList,
   "kolkata".toList, "hyderabad".toList, "pune".toList, "ahmedabad".toList,
   "jaipur".toList, "lucknow".toList, "bhubaneswar".toList, "bhubaneshwar".toList,
   "noida".toList, "gurgaon".toList, "gurugram".toList, "chandigarh".toList,
   "indore".toList, "nagpur".toList, "patna".toList, "bengaluru".toList,
   "calcutta".toList, "bombay".toList, "madras".toList]

/-- `getAcronym` (`src/lib/openrouter.ts`): first letters of the words whose
first character is upper-case, excluding city names; empty unless at least two
letters result. -/
def getAcronym (name : JSStr) : JSStr :=
  let words := jsSplitWs name
  let acronym := (words.filter (fun word =>
    match word with
    | [] => false
    | c :: _ => !(cityNames.contains (lowerJS word)) && c == c.toUpper)).map
      (fun word => word.headD ' ')
  if 2 ≤ acronym.length then acronym else []

/-- Character bigrams of a string, as in the `string-similarity` package. -/
def bigrams : JSStr → List (Char × Char)
  | a :: b :: rest => (a, b) :: bigrams (b :: rest)
  | _ => []

/-- Multiset intersection size of two bigram lists (the package counts each
occurrence of a bigram in the first string at most once per occurrence in the
second). -/
def bigramIntersect : List (Char × Char) → List (Char × Char) → Nat
  | _, [] => 0
  | fb, b :: rest =>
      if fb.contains b then bigramIntersect (fb.erase b) rest + 1
      else bigramIntersect fb rest

/-- `compareTwoStrings` from the `string-similarity` package (Dice coefficient
on character bigrams after removing whitespace), represented as the exact
fraction numerator/denominator (denominator always positive).  The thresholds
the matcher compares against (0.85 and 0.65) are far enough from every
reachable coefficient that the exact comparison agrees with the JS
double-precision one. -/
def compareTwoStrings (first second : JSStr) : Nat × Nat :=
  let f := first.filter (fun c => !(isSpaceJS c))
  let s := second.filter (fun c => !(isSpaceJS c))
  if f = s then (1, 1)
  else if f.length < 2 || s.length < 2 then (0, 1)
  else (2 * bigramIntersect (bigrams f) (bigrams s), f.length + s.length - 2)

/-- `findBestMatch(main, [t]).bestMatch.rating` as used by the matcher, which
always passes a single-element candidate list. -/
def similarityRating (main t : JSStr) : Nat × Nat := compareTwoStrings main t

/-- Exact comparison `x < y` between score fractions. -/
def fracLt (x y : Nat × Nat) : Bool := x.1 * y.2 < y.1 * x.2

/-- Exact comparison `x ≤ y` between score fractions. -/
def fracLe (x y : Nat × Nat) : Bool := x.1 * y.2 ≤ y.1 * x.2

/-- JS `Array.prototype.findIndex`, with `none` for `-1`. -/
def jsFindIdx (p : α → Bool) : List α → Option Nat
  | [] => none
  | a :: l => if p a then some 0 else (jsFindIdx p l).map (· + 1)

/-- `Math.ceil(n * 0.7)` for the natural word counts used by the matcher (the
double-precision products agree with the exact value `7n/10` at every count
reachable here). -/
def ceil70 (n : Nat) : Nat := (7 * n + 9) / 10

/-- Strip all word-bounded city names, trimming after each replacement, as the
matcher's layer 2.5 does in its `for (const city of cityNames)` loop. -/
def stripCities (s : JSStr) : JSStr :=
  cityNames.foldl (fun acc city => trimJS (replaceWordAll city acc)) s

/-- Layer 1 of `detectBrandInAnswer`: exact match after lower-casing, trimming
and removing punctuation. -/
def layer1Pred (focusClean brand : JSStr) : Bool :=
  cleanPunct (trimJS (lowerJS brand)) == focusClean

/-- Layer 2: bidirectional substring match (raw and punctuation-free), plus the
`Full Name (ABBR)` parenthetical pattern. -/
def layer2Pred (focusLower focusClean brand : JSStr) : Bool :=
  let brandLower := trimJS (lowerJS brand)
  let brandClean := cleanPunct brandLower
  includesJS brandLower focusLower || includesJS focusLower brandLower ||
  includesJS brandClean focusClean || includesJS focusClean brandClean ||
  (match parenCapture brand with
   | some cap => trimJS (lowerJS cap) == focusLower
   | none => false)

/-- Layer 2.5: city-stripped acronym comparison in both directions, then an
0.85 similarity threshold on the (non-stripped) lower-cased strings. -/
def layer25Pred (focusLower brand : JSStr) : Bool :=
  let brandLower := trimJS (lowerJS brand)
  let focusLowerTrimmed := trimJS focusLower
  let focusWithoutCity := stripCities focusLowerTrimmed
  let brandWithoutCity := stripCities brandLower
  (focusWithoutCity.length ≤ 6 && upperJS focusWithoutCity == getAcronym brandWithoutCity) ||
  (brandWithoutCity.length ≤ 6 && upperJS brandWithoutCity == getAcronym focusWithoutCity) ||
  fracLe (17, 20) (similarityRating focusLowerTrimmed brandLower)

/-- Layer 3: acronym equality, short-form-vs-acronym in both directions, and
the 70% significant-word overlap check. -/
def layer3Pred (focus focusLower brand : JSStr) : Bool :=
  let focusAcronym := getAcronym focus
  let focusWords := jsSplitWs (lowerJS focus)
  let brandAcronym := getAcronym brand
  let brandLower := lowerJS brand
  let brandWords := jsSplitWs (lowerJS brand)
  (!focusAcronym.isEmpty && !brandAcronym.isEmpty && focusAcronym == brandAcronym) ||
  (focus.length ≤ 6 && brandAcronym == upperJS focus) ||
  (brand.length ≤ 6 && focusAcronym == upperJS brand) ||
  (2 ≤ focusWords.length &&
    (let sigF := focusWords.filter (fun w => 2 < w.length)
     let sigB := brandWords.filter (fun w => 2 < w.length)
     (!sigF.isEmpty &&
        ceil70 sigF.length ≤ (sigF.filter (fun w => includesJS brandLower w)).length) ||
     (!sigB.isEmpty &&
        ceil70 sigB.length ≤ (sigB.filter (fun w => includesJS focusLower w)).length)))

/-- Layer 4: a shared significant word together with compatible first words. -/
def layer4Pred (focus brand : JSStr) : Bool :=
  let brandParts := jsSplitWs brand
  let focusParts := jsSplitWs focus
  focusParts.any (fun focusPart =>
    brandParts.any (fun brandPart =>
      lowerJS focusPart == lowerJS brandPart && 2 < focusPart.length &&
      (let focusFirstWord := lowerJS (focusParts.headD [])
       let brandFirstWord := lowerJS (brandParts.headD [])
       focusFirstWord == brandFirstWord ||
       includesJS focusFirstWord brandFirstWord ||
       includesJS brandFirstWord focusFirstWord)))

/-- Layer 5 preprocessing: the best-scoring brand under the Dice similarity,
found by the `reduce` with seed `{ brand: '', score: 0 }`. -/
def layer5Best (brands : List JSStr) (focusLower : JSStr) : JSStr × (Nat × Nat) :=
  brands.foldl
    (fun best brand =>
      let score := similarityRating focusLower (lowerJS brand)
      if fracLt best.2 score then (brand, score) else best)
    (([], (0, 1)) : JSStr × (Nat × Nat))

/-- Layer 5: accept the best-scoring brand when its score reaches 0.65. -/
def layer5Result (brands : List JSStr) (focusLower : JSStr) : Option Nat :=
  let best := layer5Best brands focusLower
  if fracLe (13, 20) best.2 then jsFindIdx (fun b => b == best.1) brands else none

/-- The local `focusLower` binding of `detectBrandInAnswer`. -/
def focusLowerOf (focus : JSStr) : JSStr := trimJS (lowerJS focus)

/-- The local `focusClean` binding of `detectBrandInAnswer`. -/
def focusCleanOf (focus : JSStr) : JSStr := cleanPunct (focusLowerOf focus)

/-- The cascade of `detectBrandInAnswer`: each layer is a `findIndex`, taken in
order with short-circuiting, and layer 5 is the similarity fallback. -/
def detectFoundIdx (brands : List JSStr) (focus : JSStr) : Option Nat :=
  ((((jsFindIdx (layer1Pred (focusCleanOf focus)) brands).orElse (fun _ =>
      jsFindIdx (layer2Pred (focusLowerOf focus) (focusCleanOf focus)) brands)).orElse (fun _ =>
      jsFindIdx (layer25Pred (focusLowerOf focus)) brands)).orElse (fun _ =>
      (jsFindIdx (layer3Pred focus (focusLowerOf focus)) brands).orElse (fun _ =>
      jsFindIdx (layer4Pred focus) brands))).orElse (fun _ =>
      layer5Result brands (focusLowerOf focus))

/-- `detectBrandInAnswer` (`src/lib/openrouter.ts`): the local five-layer
heuristic matcher; returns the 1-based rank (0 when not found) and the derived
visibility string. -/
def detectBrandInAnswer (brands : List JSStr) (focus : JSStr) : Nat × String :=
  if brands.isEmpty then (0, "0%")
  else
    match detectFoundIdx brands focus with
    | none => (0, "0%")
    | some foundIndex =>
        (foundIndex + 1, if foundIndex + 1 = 1 then "100%" else "50%")

/-! ## Semantic validation (`validateBrandWithLLM`) and rank resolution -/

/-- The JSON object recovered from the validator's reply by
`extractAndParseJSON`; every field may be absent. -/
structure ValidationJson where
  found : Option Bool
  matched_name : Option String
  position : Option Int
  confidence : Option String
  reasoning : Option String
deriving DecidableEq

/-- The record `validateBrandWithLLM` resolves to. -/
structure ValidationResult where
  found : Bool
  matched_name : Option String
  position : Option Int
  confidence : String
  reasoning : String
deriving DecidableEq

/-- Outcome of the validator's HTTP round-trip, passed to the embedded
function explicitly: a transport error thrown by `fetchWithRetry` (carrying
the error message), a non-OK HTTP response, an OK response with no/empty
`content`, a response whose body `extractAndParseJSON` rejects (the raised
parse error carries a message and is caught by the surrounding `catch`), or a
successfully parsed JSON object. -/
inductive LLMCallOutcome where
  | transportError (msg : String)
  | httpNotOk
  | emptyContent
  | parseFailure (msg : String)
  | parsed (v : ValidationJson)
deriving DecidableEq

/-- `x || null` for a JSON number: `0` is falsy and collapses to `null`. -/
def jsNumOrNull : Option Int → Option Int
  | some p => if p = 0 then none else some p
  | none => none

/-- `x || null` for a JSON string: `""` is falsy and collapses to `null`. -/
def jsStrOrNull : Option String → Option String
  | some "" => none
  | x => x

/-- `x || dflt` for a JSON string. -/
def jsStrOr (dflt : String) : Option String → String
  | some "" => dflt
  | some s => s
  | none => dflt

/-- Does the outcome represent a failed validation round-trip (transport
error, bad HTTP status, empty content or malformed/non-JSON body)? -/
def outcomeIsFailure : LLMCallOutcome → Bool
  | .parsed _ => false
  | _ => true

/-- `validateBrandWithLLM` (`src/lib/openrouter.ts`): total function of the
mentioned-brands list and of the validation call's outcome.  Every failure
branch is caught inside the function and resolved to a not-found record —
nothing escapes as an exception, and the local heuristic matcher is never
consulted. -/
def validateBrandWithLLM (brands : List JSStr) (outcome : LLMCallOutcome) :
    ValidationResult :=
  if brands.isEmpty then
    ⟨false, none, none, "high", "No brands mentioned in the answer"⟩
  else
    match outcome with
    | .transportError msg =>
        ⟨false, none, none, "low", "Validation error: " ++ msg⟩
    | .httpNotOk =>
        ⟨false, none, none, "low", "Validation API call failed"⟩
    | .emptyContent =>
        ⟨false, none, none, "low", "Empty validation response"⟩
    | .parseFailure msg =>
        ⟨false, none, none, "low", "Validation error: " ++ msg⟩
    | .parsed v =>
        ⟨v.found.getD false, jsStrOrNull v.matched_name, jsNumOrNull v.position,
         jsStrOr "medium" v.confidence, jsStrOr "No reasoning provided" v.reasoning⟩

/-- The rank/visibility computation of `processBatchQueries`
(`src/lib/openrouter.ts`, after the `validateBrandWithLLM` call): rank is the
validator's reported position whenever `validation.found && validation.position`
is truthy, with no bounds check against the brands list. -/
def rankAndVisibility (v : ValidationResult) : Int × String :=
  if v.found then
    match v.position with
    | some p => if p = 0 then (0, "0%") else (p, if p = 1 then "100%" else "50%")
    | none => (0, "0%")
  else (0, "0%")

/-! ## Metrics (`lib/metrics.ts`) -/

/-- `getQueryVisibility` (`lib/metrics.ts`): the flat rank-to-visibility
table. -/
def getQueryVisibility (rank : Int) : String :=
  if rank = 0 then "0%"
  else if rank = 1 then "100%"
  else "50%"

/-- `Math.round(a / b * 100)` for the progress computation, as the exact
round-half-up of `100 * a / b` (`Math.round` rounds half toward `+∞`; the
double-precision quotient agrees with the exact one at every count pair whose
quotient does not fall on a representability boundary, and in particular at
the inputs evaluated below). -/
def jsRoundPct (a b : Nat) : Nat := (200 * a + b) / (2 * b)

/-- `updateAnalysisProgress` (`lib/metrics.ts`), as a function of the freshly
fetched list of query statuses: only `'completed'` queries are counted. -/
def updateAnalysisProgress (statuses : List String) : Nat :=
  let completed := (statuses.filter (fun s => s = "completed")).length
  let total := statuses.length
  if 0 < total then jsRoundPct completed total else 0

/-- Modelled from the spec: the progress formula the specification states
("completed+failed query count / total × 100") — used only to compare the
spec's wording against `updateAnalysisProgress` as implemented. -/
def specProgressFormula (statuses : List String) : Nat :=
  let done := (statuses.filter (fun s => s = "completed" ∨ s = "failed")).length
  let total := statuses.length
  if 0 < total then jsRoundPct done total else 0

/-! ## Batch processor (`src/lib/batch-processor.ts`) -/

/-- The fields of a Query row used by the batch processor. -/
structure Query where
  id : String
  query_text : String
deriving DecidableEq

/-- A batch, as built by `createBatches`: a 1-based id plus a query slice. -/
structure QueryBatch where
  batchId : Nat
  queries : List Query
deriving DecidableEq

/-- `createBatches`' loop (`for (i = 0; i < queries.length; i += batchSize)`),
with the slice start `i` made explicit and a fuel argument bounding the number
of iterations (instantiated with the list length, which always suffices for
the positive batch size used). -/
def createBatchesAux (batchSize : Nat) : Nat → Nat → List Query → List QueryBatch
  | _, _, [] => []
  | 0, _, _ => []
  | fuel + 1, i, l =>
      ⟨i / batchSize + 1, l.take batchSize⟩ ::
        createBatchesAux batchSize fuel (i + batchSize) (l.drop batchSize)

/-- `createBatches` (`src/lib/batch-processor.ts`). -/
def createBatches (queries : List Query) (batchSize : Nat) : List QueryBatch :=
  createBatchesAux batchSize queries.length 0 queries

/-! ## Retry policy (`fetchWithRetry`, identical in `openrouter.ts` and
`openai.ts`) -/

/-- Outcome of a single `fetch` attempt: either the promise rejects (network
failure, timeout abort — carrying the error name) or an HTTP response arrives,
carrying its status and the numeric `Retry-After` header if present. -/
inductive FetchAttempt where
  | throws (name : String)
  | response (status : Nat) (retryAfter : Option Nat)
deriving DecidableEq

/-- Result of `fetchWithRetry`: a response returned to the caller, a rethrown
error from the final attempt, or the `Max retries exceeded` error after three
rate-limited responses. -/
inductive FetchResult where
  | returned (status : Nat) (retryAfter : Option Nat)
  | threw (name : String)
  | maxRetriesError
deriving DecidableEq

/-- The retry loop of `fetchWithRetry`: `att n` is the outcome of attempt `n`
(0-based, as the loop variable `i`).  Returns the result, the list of waits
performed (in ms), and the number of attempts consumed.  `fuel` is the number
of attempts still allowed (`maxRetries - i`). -/
def fetchWithRetryGo (att : Nat → FetchAttempt) : Nat → Nat → FetchResult × List Nat × Nat
  | 0, _ => (.maxRetriesError, [], 0)
  | fuel + 1, i =>
      match att i with
      | .response status retryAfter =>
          if status = 429 then
            let rest := fetchWithRetryGo att fuel (i + 1)
            (rest.1, (retryAfter.getD 5) * 1000 :: rest.2.1, rest.2.2 + 1)
          else (.returned status retryAfter, [], 1)
      | .throws name =>
          if fuel = 0 then (.threw name, [], 1)
          else
            let rest := fetchWithRetryGo att fuel (i + 1)
            (rest.1, 2000 * (i + 1) :: rest.2.1, rest.2.2 + 1)

/-- `fetchWithRetry` with the default `maxRetries = 3`. -/
def fetchWithRetry (att : Nat → FetchAttempt) : FetchResult × List Nat × Nat :=
  fetchWithRetryGo att 3 0

/-! ## Per-batch retry and round settlement -/

/-- The mutable state of one query row that the batch processor touches. -/
structure QueryState where
  status : String
  error_message : Option String
deriving DecidableEq

/-- The query table, keyed by query id. -/
def QueryDB := String → QueryState

/-- Outcome of one `processBatchQueries` dispatch: on success the call has
already persisted one terminal status per query of the batch (positionally);
on failure it raised with an error message. -/
inductive BatchAttempt where
  | success (statuses : List String)
  | failure (msg : String)

/-- Write a status (leaving any recorded error untouched). -/
def setStatus (db : QueryDB) (id status : String) : QueryDB :=
  fun x => if x = id then { db x with status := status } else db x

/-- The `status: 'failed', error_message: lastError` update applied to every
query of an exhausted batch. -/
def setFailed (db : QueryDB) (id msg : String) : QueryDB :=
  fun x => if x = id then ⟨"failed", some msg⟩ else db x

/-- Mark every query of the batch `processing` (start of `processSingleBatch`). -/
def markProcessing (db : QueryDB) (queries : List Query) : QueryDB :=
  queries.foldl (fun d q => setStatus d q.id "processing") db

/-- Mark every query of the batch failed with the last error message. -/
def markFailed (db : QueryDB) (queries : List Query) (msg : String) : QueryDB :=
  queries.foldl (fun d q => setFailed d q.id msg) db

/-- Per-query persistence performed inside a successful `processBatchQueries`
call: the `k`-th query receives the `k`-th terminal status. -/
def applyBatchSuccess (db : QueryDB) (queries : List Query)
    (statuses : List String) : QueryDB :=
  (queries.zip statuses).foldl (fun d qs => setStatus d qs.1.id qs.2) db

/-- The retry loop of `processSingleBatch` (`attempt = 1 .. MAX_RETRIES`):
on success the per-query writes have already happened and the function
returns; when every attempt fails, every query of the batch is marked
`failed` with the last error message and that error is re-raised. -/
def processSingleBatchGo (queries : List Query) (att : Nat → BatchAttempt) :
    Nat → Nat → Option String → QueryDB → QueryDB × Except String Unit
  | 0, _, lastError, db =>
      let msg := lastError.getD "Unknown error"
      (markFailed db queries msg, .error msg)
  | fuel + 1, attempt, _, db =>
      match att attempt with
      | .success statuses => (applyBatchSuccess db queries statuses, .ok ())
      | .failure msg => processSingleBatchGo queries att fuel (attempt + 1) (some msg) db

/-- `processSingleBatch` (`src/lib/batch-processor.ts`) with `MAX_RETRIES = 3`:
`att n` is the outcome of the `n`-th dispatch attempt (1-based, as the loop
variable `attempt`). -/
def processSingleBatch (db : QueryDB) (queries : List Query)
    (att : Nat → BatchAttempt) : QueryDB × Except String Unit :=
  processSingleBatchGo queries att 3 1 none (markProcessing db queries)

/-- One round of `processBatchesConcurrently`: `Promise.allSettled` over the
round's batches — every batch settles to its own fulfilled/rejected result and
no rejection aborts the round.  (The batches of a round own disjoint query
rows, so running their independent per-row writes in sequence is equivalent to
the concurrent execution.) -/
def processRound (db : QueryDB)
    (items : List (List Query × (Nat → BatchAttempt))) :
    QueryDB × List (Except String Unit) :=
  items.foldl
    (fun acc item =>
      let r := processSingleBatch acc.1 item.1 item.2
      (r.1, acc.2 ++ [r.2]))
    (db, [])

/-! ## Pipeline controller (`processAnalysis`) -/

/-- The fields of the Analysis row that `processAnalysis` reads and writes. -/
structure AnalysisState where
  status : String
  progress : Nat
deriving DecidableEq

/-- Outcome of the batch-processing and metrics steps (steps 5–6 of
`processAnalysis`), passed explicitly: `ok` means `processBatchesConcurrently`
and `calculateAllMetrics` both returned (the latter having set the analysis
`completed` with progress 100), `error` that one of them raised. -/
inductive PipelineOutcome where
  | ok
  | error (msg : String)
deriving DecidableEq

/-- `processAnalysis` (`src/lib/batch-processor.ts`): guards on the `pending`
status, raises `No queries found for analysis` when the analysis owns no query
rows, and on any raised error marks the analysis `failed` before re-throwing. -/
def processAnalysis (analysis : AnalysisState) (queries : List Query)
    (pipeline : PipelineOutcome) : AnalysisState × Except String Unit :=
  if analysis.status ≠ "pending" then (analysis, .ok ())
  else
    let processing : AnalysisState := { analysis with status := "processing" }
    if queries.isEmpty then
      ({ processing with status := "failed" }, .error "No queries found for analysis")
    else
      match pipeline with
      | .error msg => ({ processing with status := "failed" }, .error msg)
      | .ok => (⟨"completed", 100⟩, .ok ())

/-! ## Helper lemmas -/

theorem jsFindIdx_some {α : Type _} (p : α → Bool) :
    ∀ (l : List α) (i : Nat), jsFindIdx p l = some i →
      ∃ b, l.get? i = some b ∧ p b = true := by
  intro l
  induction l with
  | nil => intro i h; simp [jsFindIdx] at h
  | cons a l ih =>
      intro i h
      by_cases hp : p a
      · simp [jsFindIdx, hp] at h
        exact ⟨a, by simp [← h], hp⟩
      · simp [jsFindIdx, hp] at h
        rcases h with ⟨j, hj, rfl⟩
        rcases ih j hj with ⟨b, hb, hpb⟩
        exact ⟨b, by simpa using hb, hpb⟩

theorem jsFindIdx_some_lt {α : Type _} (p : α → Bool) (l : List α) (i : Nat)
    (h : jsFindIdx p l = some i) : i < l.length := by
  rcases jsFindIdx_some p l i h with ⟨b, hb, -⟩
  exact (List.get?_eq_some.mp hb).1

/-- The matched entry of a positive detection: `b` satisfies the predicate of
one of the five cascade layers (for layer 5, `b` is the best-scoring brand and
its score reaches the 0.65 threshold). -/
def cascadeMatch (brands : List JSStr) (focus b : JSStr) : Prop :=
  layer1Pred (focusCleanOf focus) b = true ∨
  layer2Pred (focusLowerOf focus) (focusCleanOf focus) b = true ∨
  layer25Pred (focusLowerOf focus) b = true ∨
  layer3Pred focus (focusLowerOf focus) b = true ∨
  layer4Pred focus b = true ∨
  (b = (layer5Best brands (focusLowerOf focus)).1 ∧
   fracLe (13, 20) (layer5Best brands (focusLowerOf focus)).2 = true)

theorem layer5Result_spec (brands : List JSStr) (fl : JSStr) (i : Nat)
    (h : layer5Result brands fl = some i) :
    ∃ b, brands.get? i = some b ∧ b = (layer5Best brands fl).1 ∧
      fracLe (13, 20) (layer5Best brands fl).2 = true := by
  unfold layer5Result at h
  by_cases hc : fracLe (13, 20) (layer5Best brands fl).2 = true
  · simp only [hc, if_true] at h
    rcases jsFindIdx_some _ brands i h with ⟨b, hb, hpb⟩
    exact ⟨b, hb, by simpa using hpb, hc⟩
  · simp only [Bool.not_eq_true] at hc
    simp [hc] at h

theorem detectFoundIdx_spec (brands : List JSStr) (focus : JSStr) (i : Nat)
    (h : detectFoundIdx brands focus = some i) :
    ∃ b, brands.get? i = some b ∧ cascadeMatch brands focus b := by
  unfold detectFoundIdx at h
  cases h1 : jsFindIdx (layer1Pred (focusCleanOf focus)) brands with
  | some j =>
      rw [h1] at h
      simp only [Option.orElse] at h
      cases h
      rcases jsFindIdx_some _ brands i h1 with ⟨b, hb, hp⟩
      exact ⟨b, hb, Or.inl hp⟩
  | none =>
      rw [h1] at h
      simp only [Option.orElse] at h
      cases h2 : jsFindIdx (layer2Pred (focusLowerOf focus) (focusCleanOf focus)) brands with
      | some j =>
          rw [h2] at h
          simp only [Option.orElse] at h
          cases h
          rcases jsFindIdx_some _ brands i h2 with ⟨b, hb, hp⟩
          exact ⟨b, hb, Or.inr (Or.inl hp)⟩
      | none =>
          rw [h2] at h
          simp only [Option.orElse] at h
          cases h25 : jsFindIdx (layer25Pred (focusLowerOf focus)) brands with
          | some j =>
              rw [h25] at h
              simp only [Option.orElse] at h
              cases h
              rcases jsFindIdx_some _ brands i h25 with ⟨b, hb, hp⟩
              exact ⟨b, hb, Or.inr (Or.inr (Or.inl hp))⟩
          | none =>
              rw [h25] at h
              simp only [Option.orElse] at h
              cases h3 : jsFindIdx (layer3Pred focus (focusLowerOf focus)) brands with
              | some j =>
                  rw [h3] at h
                  simp only [Option.orElse] at h
                  cases h
                  rcases jsFindIdx_some _ brands i h3 with ⟨b, hb, hp⟩
                  exact ⟨b, hb, Or.inr (Or.inr (Or.inr (Or.inl hp)))⟩
              | none =>
                  rw [h3] at h
                  simp only [Option.orElse] at h
                  cases h4 : jsFindIdx (layer4Pred focus) brands with
                  | some j =>
                      rw [h4] at h
                      simp only [Option.orElse] at h
                      cases h
                      rcases jsFindIdx_some _ brands i h4 with ⟨b, hb, hp⟩
                      exact ⟨b, hb, Or.inr (Or.inr (Or.inr (Or.inr (Or.inl hp))))⟩
                  | none =>
                      rw [h4] at h
                      simp only [Option.orElse] at h
                      rcases layer5Result_spec brands (focusLowerOf focus) i h with
                        ⟨b, hb, hbest, hscore⟩
                      exact ⟨b, hb, Or.inr (Or.inr (Or.inr (Or.inr (Or.inr ⟨hbest, hscore⟩))))⟩

/-! ## Claim theorems -/

/-- Claim C1 (amended): for the local heuristic `detectBrandInAnswer` the
invariant holds — the rank lies in `[0, length]` and a positive rank points at
the 1-based position of the entry matched by the cascade.  For
`processBatchQueries`, the rank equals the external validator's reported
position whenever `found` holds and the position is nonzero, independently of
the brands list — the code applies no bounds check to it. -/
theorem rank_within_bounds :
    (∀ (brands : List JSStr) (focus : JSStr),
      (detectBrandInAnswer brands focus).1 ≤ brands.length ∧
      (0 < (detectBrandInAnswer brands focus).1 →
        ∃ b, brands.get? ((detectBrandInAnswer brands focus).1 - 1) = some b ∧
          cascadeMatch brands focus b)) ∧
    (∀ (brands : List JSStr) (j : ValidationJson) (p : Int),
      brands ≠ [] → j.found = some true → j.position = some p → p ≠ 0 →
      (rankAndVisibility (validateBrandWithLLM brands (.parsed j))).1 = p) := by
  constructor
  · intro brands focus
    by_cases hb : brands.isEmpty
    · simp [detectBrandInAnswer, hb]
    · cases hidx : detectFoundIdx brands focus with
      | none => simp [detectBrandInAnswer, hb, hidx]
      | some i =>
          rcases detectFoundIdx_spec brands focus i hidx with ⟨b, hget, hmatch⟩
          have hlt : i < brands.length := (List.get?_eq_some.mp hget).1
          constructor
          · simp only [detectBrandInAnswer, hb, hidx]
            simp
            omega
          · intro _
            refine ⟨b, ?_, hmatch⟩
            simp only [detectBrandInAnswer, hb, hidx]
            simpa using hget
  · intro brands j p hne hfound hpos hp0
    have hb : brands.isEmpty = false := by
      cases brands
      · exact absurd rfl hne
      · rfl
    simp [validateBrandWithLLM, hb, hfound, hpos, jsNumOrNull, hp0,
          rankAndVisibility]

/-- Claim C1 (counterexample): the validator path accepts an out-of-range
position — with a single mentioned brand and a parsed validation reply
reporting position 3, the stored rank is 3, outside `[0, 1]`. -/
theorem validator_rank_out_of_bounds :
    (rankAndVisibility (validateBrandWithLLM ["Acme".toList]
        (.parsed ⟨some true, some "Acme EdTech", some 3, some "high",
          some "semantic match"⟩))).1 = 3 ∧
    (["Acme".toList] : List JSStr).length = 1 ∧ ¬((3 : Int) ≤ 1) := by
  decide

theorem rank_within_bounds_witness :
    0 < (detectBrandInAnswer ["Acme".toList] "Acme".toList).1 ∧
    (∃ b, (["Acme".toList] : List JSStr).get?
        ((detectBrandInAnswer ["Acme".toList] "Acme".toList).1 - 1) = some b ∧
      cascadeMatch ["Acme".toList] "Acme".toList b) :=
  ⟨by decide, (rank_within_bounds.1 ["Acme".toList] "Acme".toList).2 (by decide)⟩

/-- Claim C3: the visibility weight is the flat table rank 0 → 0%,
rank 1 → 100%, rank ≥ 2 → 50%, both in the standalone `getQueryVisibility`
and in the mapping `processBatchQueries` applies after validation (the two
agree on every validation result). -/
theorem visibility_weight_table :
    getQueryVisibility 0 = "0%" ∧ getQueryVisibility 1 = "100%" ∧
    (∀ r : Int, 2 ≤ r → getQueryVisibility r = "50%") ∧
    (∀ v : ValidationResult,
      (rankAndVisibility v).2 = getQueryVisibility (rankAndVisibility v).1) := by
  refine ⟨rfl, rfl, ?_, ?_⟩
  · intro r hr
    have h0 : r ≠ 0 := by omega
    have h1 : r ≠ 1 := by omega
    simp [getQueryVisibility, h0, h1]
  · intro v
    rcases v with ⟨found, mn, pos, conf, reas⟩
    cases found
    · simp [rankAndVisibility, getQueryVisibility]
    · cases pos with
      | none => simp [rankAndVisibility, getQueryVisibility]
      | some p =>
          by_cases h0 : p = 0
          · simp [rankAndVisibility, getQueryVisibility, h0]
          · by_cases h1 : p = 1
            · simp [rankAndVisibility, getQueryVisibility, h0, h1]
            · simp [rankAndVisibility, getQueryVisibility, h0, h1]

theorem visibility_weight_table_witness :
    2 ≤ (2 : Int) ∧ getQueryVisibility 2 = "50%" :=
  ⟨by decide, visibility_weight_table.2.2.1 2 (by decide)⟩

/-- Claim C5: with an empty mentioned-brands list, the local matcher returns
rank 0 immediately, and `validateBrandWithLLM` returns its fixed not-found
record whatever the outcome of the (never issued) external call would be, so
the resolved rank is 0. -/
theorem empty_brands_short_circuit :
    (∀ focus : JSStr, detectBrandInAnswer [] focus = (0, "0%")) ∧
    (∀ outcome : LLMCallOutcome,
      validateBrandWithLLM [] outcome =
        ⟨false, none, none, "high", "No brands mentioned in the answer"⟩) ∧
    (∀ outcome : LLMCallOutcome,
      rankAndVisibility (validateBrandWithLLM [] outcome) = (0, "0%")) :=
  ⟨fun _ => rfl, fun _ => rfl, fun _ => rfl⟩

/-- Claim C2: every failed validation round-trip (transport error, non-OK
status, empty content, malformed body) resolves to found = false inside
`validateBrandWithLLM` — no exception escapes, the local heuristic is not
consulted — and therefore to rank 0 in `processBatchQueries`. -/
theorem validation_fail_closed :
    ∀ (brands : List JSStr) (outcome : LLMCallOutcome),
      outcomeIsFailure outcome = true →
      (validateBrandWithLLM brands outcome).found = false ∧
      rankAndVisibility (validateBrandWithLLM brands outcome) = (0, "0%") := by
  intro brands outcome h
  by_cases hb : brands.isEmpty
  · simp [validateBrandWithLLM, hb, rankAndVisibility]
  · cases outcome with
    | parsed v => simp [outcomeIsFailure] at h
    | transportError msg => simp [validateBrandWithLLM, hb, rankAndVisibility]
    | httpNotOk => simp [validateBrandWithLLM, hb, rankAndVisibility]
    | emptyContent => simp [validateBrandWithLLM, hb, rankAndVisibility]
    | parseFailure msg => simp [validateBrandWithLLM, hb, rankAndVisibility]

theorem validation_fail_closed_witness :
    outcomeIsFailure (.transportError "network error") = true ∧
    rankAndVisibility
      (validateBrandWithLLM ["Acme".toList] (.transportError "network error")) =
      (0, "0%") ∧
    (detectBrandInAnswer ["Acme".toList] "Acme".toList).1 = 1 :=
  ⟨by decide,
   (validation_fail_closed ["Acme".toList] (.transportError "network error")
      (by decide)).2,
   by decide⟩

/-- Claim C9 (code bug): matching the single mentioned brand
`Xavier Institute of Management Bhubaneswar` against the focus name
`XIM Bhubaneshwar` yields rank 0, not rank 1: layer 2.5 strips the city names
from the already lower-cased strings, and `getAcronym` then filters on an
upper-case first letter, so the derived acronym of the city-stripped brand is
always empty and can never equal `XIM`; no other layer matches either. -/
theorem xavier_city_stripping_not_found :
    detectBrandInAnswer ["Xavier Institute of Management Bhubaneswar".toList]
      "XIM Bhubaneshwar".toList = (0, "0%") ∧
    getAcronym (stripCities
      (trimJS (lowerJS "Xavier Institute of Management Bhubaneswar".toList))) = [] := by
  constructor
  · decide
  · decide

/-- Claim C8 (counterexample): with one completed and one failed query the
code reports 50% progress, while the claimed formula
(completed+failed)/total × 100 gives 100%. -/
theorem progress_failed_not_counted_counterexample :
    updateAnalysisProgress ["completed", "failed"] = 50 ∧
    specProgressFormula ["completed", "failed"] = 100 ∧ (50 : Nat) ≠ 100 := by
  decide

/-- Claim C8 (amended): after each round the persisted progress is
`round(100 × completed / total)` — queries that terminated as `failed` do NOT
count; progress depends only on the completed count and the total. -/
theorem progress_only_counts_completed :
    ∀ statuses : List String,
      updateAnalysisProgress statuses =
        (if 0 < statuses.length then
          jsRoundPct ((statuses.filter (fun s => s = "completed")).length)
            statuses.length
         else 0) ∧
      ∀ other : List String, statuses.length = other.length →
        (statuses.filter (fun s => s = "completed")).length =
          (other.filter (fun s => s = "completed")).length →
        updateAnalysisProgress statuses = updateAnalysisProgress other := by
  intro statuses
  refine ⟨rfl, ?_⟩
  intro other hlen hcount
  simp only [updateAnalysisProgress, hlen, hcount]

theorem fetchWithRetryGo_attempts_le (att : Nat → FetchAttempt) :
    ∀ (fuel i : Nat), (fetchWithRetryGo att fuel i).2.2 ≤ fuel := by
  intro fuel
  induction fuel with
  | zero => intro i; simp [fetchWithRetryGo]
  | succ fuel ih =>
      intro i
      simp only [fetchWithRetryGo]
      cases att i with
      | response status retryAfter =>
          by_cases h : status = 429
          · simpa [h] using Nat.succ_le_succ (ih (i + 1))
          · simp [h]
      | throws name =>
          by_cases h : fuel = 0
          · simp [h]
          · simpa [h] using Nat.succ_le_succ (ih (i + 1))

/-- Claim C7 (counterexample): an HTTP 500 response on the very first attempt
is returned straight to the caller — one attempt consumed, no wait, no retry —
refuting the claim that 5xx responses trigger an exponential-backoff retry. -/
theorem http_5xx_returned_not_retried :
    fetchWithRetry (fun _ => .response 500 none) =
      (.returned 500 none, [], 1) := by
  decide

/-- Claim C7 (amended): `fetchWithRetry` performs up to 3 attempts; a 429
response is retried after waiting the numeric `Retry-After` hint (5 seconds by
default); a thrown network error is retried after a linearly increasing
`2000·(i+1)` ms backoff and rethrown on the final attempt; any non-429
response — 5xx included — is returned to the caller immediately; three
consecutive 429s exhaust the attempts with the `Max retries exceeded` error. -/
theorem retry_policy_characterization :
    (∀ att, (fetchWithRetry att).2.2 ≤ 3) ∧
    (∀ att s ra, att 0 = .response s ra → s ≠ 429 →
      fetchWithRetry att = (.returned s ra, [], 1)) ∧
    (∀ att ra s ra₁, att 0 = .response 429 ra → att 1 = .response s ra₁ →
      s ≠ 429 →
      fetchWithRetry att = (.returned s ra₁, [(ra.getD 5) * 1000], 2)) ∧
    (∀ att n s ra, att 0 = .throws n → att 1 = .response s ra → s ≠ 429 →
      fetchWithRetry att = (.returned s ra, [2000], 2)) ∧
    (∀ att n₀ n₁ n₂, att 0 = .throws n₀ → att 1 = .throws n₁ →
      att 2 = .throws n₂ →
      fetchWithRetry att = (.threw n₂, [2000, 4000], 3)) ∧
    (∀ att ra₀ ra₁ ra₂, att 0 = .response 429 ra₀ → att 1 = .response 429 ra₁ →
      att 2 = .response 429 ra₂ →
      fetchWithRetry att =
        (.maxRetriesError,
         [(ra₀.getD 5) * 1000, (ra₁.getD 5) * 1000, (ra₂.getD 5) * 1000], 3)) := by
  refine ⟨fun att => fetchWithRetryGo_attempts_le att 3 0, ?_, ?_, ?_, ?_, ?_⟩
  · intro att s ra h0 hs
    simp [fetchWithRetry, fetchWithRetryGo, h0, hs]
  · intro att ra s ra₁ h0 h1 hs
    simp [fetchWithRetry, fetchWithRetryGo, h0, h1, hs]
  · intro att n s ra h0 h1 hs
    simp [fetchWithRetry, fetchWithRetryGo, h0, h1, hs]
  · intro att n₀ n₁ n₂ h0 h1 h2
    simp [fetchWithRetry, fetchWithRetryGo, h0, h1, h2]
  · intro att ra₀ ra₁ ra₂ h0 h1 h2
    simp [fetchWithRetry, fetchWithRetryGo, h0, h1, h2]

theorem retry_policy_characterization_witness :
    (fun n => if n = 0 then FetchAttempt.response 429 (some 7)
              else FetchAttempt.response 200 none) 0 =
        FetchAttempt.response 429 (some 7) ∧
    (fun n => if n = 0 then FetchAttempt.response 429 (some 7)
              else FetchAttempt.response 200 none) 1 =
        FetchAttempt.response 200 none ∧
    (200 : Nat) ≠ 429 ∧
    fetchWithRetry
      (fun n => if n = 0 then FetchAttempt.response 429 (some 7)
                else FetchAttempt.response 200 none) =
      (.returned 200 none, [7000], 2) :=
  ⟨rfl, rfl, by decide,
   retry_policy_characterization.2.2.1 _ (some 7) 200 none rfl rfl (by decide)⟩

theorem createBatchesAux_nil (batchSize : Nat) :
    ∀ (fuel i : Nat), createBatchesAux batchSize fuel i [] = [] := by
  intro fuel i
  cases fuel <;> rfl

theorem createBatchesAux_cons (batchSize fuel i : Nat) (q : Query)
    (l : List Query) :
    createBatchesAux batchSize (fuel + 1) i (q :: l) =
      ⟨i / batchSize + 1, (q :: l).take batchSize⟩ ::
        createBatchesAux batchSize fuel (i + batchSize) ((q :: l).drop batchSize) := rfl

theorem createBatchesAux_join :
    ∀ (fuel i : Nat) (l : List Query), l.length ≤ fuel →
      ((createBatchesAux 5 fuel i l).map QueryBatch.queries).flatten = l := by
  intro fuel
  induction fuel with
  | zero =>
      intro i l hl
      have : l = [] := List.length_eq_zero.mp (Nat.le_zero.mp hl)
      subst this
      simp [createBatchesAux_nil]
  | succ fuel ih =>
      intro i l hl
      cases l with
      | nil => simp [createBatchesAux_nil]
      | cons q l =>
          rw [createBatchesAux_cons]
          have hlen : ((q :: l).drop 5).length ≤ fuel := by
            simp only [List.length_drop, List.length_cons]
            simp only [List.length_cons] at hl
            omega
          simp only [List.map_cons, List.flatten_cons]
          rw [ih (i + 5) ((q :: l).drop 5) hlen]
          exact List.take_append_drop 5 (q :: l)

theorem createBatchesAux_length :
    ∀ (fuel i : Nat) (l : List Query), l.length ≤ fuel →
      (createBatchesAux 5 fuel i l).length = (l.length + 4) / 5 := by
  intro fuel
  induction fuel with
  | zero =>
      intro i l hl
      have : l = [] := List.length_eq_zero.mp (Nat.le_zero.mp hl)
      subst this
      simp [createBatchesAux_nil]
  | succ fuel ih =>
      intro i l hl
      cases l with
      | nil => simp [createBatchesAux_nil]
      | cons q l =>
          rw [createBatchesAux_cons]
          have hlen : ((q :: l).drop 5).length ≤ fuel := by
            simp only [List.length_drop, List.length_cons]
            simp only [List.length_cons] at hl
            omega
          rw [List.length_cons, ih (i + 5) _ hlen]
          simp only [List.length_drop, List.length_cons]
          omega

theorem createBatchesAux_sizes :
    ∀ (fuel i : Nat) (l : List Query), l.length ≤ fuel →
      ∀ b ∈ createBatchesAux 5 fuel i l,
        b.queries.length ≤ 5 ∧ b.queries ≠ [] := by
  intro fuel
  induction fuel with
  | zero =>
      intro i l hl
      have : l = [] := List.length_eq_zero.mp (Nat.le_zero.mp hl)
      subst this
      simp [createBatchesAux_nil]
  | succ fuel ih =>
      intro i l hl
      cases l with
      | nil => simp [createBatchesAux_nil]
      | cons q l =>
          rw [createBatchesAux_cons]
          intro b hb
          rcases List.mem_cons.mp hb with rfl | hb
          · constructor
            · exact List.length_take_le 5 (q :: l)
            · simp
          · have hlen : ((q :: l).drop 5).length ≤ fuel := by
              simp only [List.length_drop, List.length_cons]
              simp only [List.length_cons] at hl
              omega
            exact ih (i + 5) _ hlen b hb

theorem createBatchesAux_full :
    ∀ (fuel i : Nat) (l : List Query), l.length ≤ fuel →
      ∀ (j : Nat) (b : QueryBatch),
        (createBatchesAux 5 fuel i l).get? j = some b →
        j + 1 < (createBatchesAux 5 fuel i l).length →
        b.queries.length = 5 := by
  intro fuel
  induction fuel with
  | zero =>
      intro i l hl j b hj _
      have : l = [] := List.length_eq_zero.mp (Nat.le_zero.mp hl)
      subst this
      simp [createBatchesAux_nil] at hj
  | succ fuel ih =>
      intro i l hl j b hj hlt
      cases l with
      | nil => simp [createBatchesAux_nil] at hj
      | cons q l =>
          rw [createBatchesAux_cons] at hj hlt
          have hlen : ((q :: l).drop 5).length ≤ fuel := by
            simp only [List.length_drop, List.length_cons]
            simp only [List.length_cons] at hl
            omega
          cases j with
          | zero =>
              simp only [List.get?] at hj
              have hb : b = ⟨i / 5 + 1, (q :: l).take 5⟩ := by
                injection hj with h
                exact h.symm
              subst hb
              simp only [List.length_cons] at hlt
              -- the tail of batches is nonempty, so the list has more than 5 items
              have hrest : createBatchesAux 5 fuel (i + 5) ((q :: l).drop 5) ≠ [] := by
                intro hnil
                rw [hnil] at hlt
                simp at hlt
              have hdrop : ((q :: l).drop 5) ≠ [] := by
                intro hnil
                exact hrest (by rw [hnil, createBatchesAux_nil])
              have hlong : 5 < (q :: l).length := by
                rcases Nat.lt_or_ge 5 (q :: l).length with h | h
                · exact h
                · exact absurd (List.drop_eq_nil_of_le h) hdrop
              simp only [List.length_take]
              omega
          | succ j =>
              simp only [List.get?] at hj
              simp only [List.length_cons] at hlt
              exact ih (i + 5) _ hlen j b hj (by omega)

/-- Claim C4: `createBatches` with batch size 5 produces `⌈N/5⌉` batches whose
concatenation is the original query list in order; every batch is nonempty
with at most 5 queries, and every batch except possibly the last has exactly
5. -/
theorem createBatches_partition :
    ∀ queries : List Query,
      (createBatches queries 5).length = (queries.length + 4) / 5 ∧
      ((createBatches queries 5).map QueryBatch.queries).flatten = queries ∧
      (∀ b ∈ createBatches queries 5, b.queries.length ≤ 5 ∧ b.queries ≠ []) ∧
      (∀ (i : Nat) (b : QueryBatch), (createBatches queries 5).get? i = some b →
        i + 1 < (createBatches queries 5).length → b.queries.length = 5) := by
  intro queries
  exact ⟨createBatchesAux_length queries.length 0 queries le_rfl,
         createBatchesAux_join queries.length 0 queries le_rfl,
         createBatchesAux_sizes queries.length 0 queries le_rfl,
         fun i b => createBatchesAux_full queries.length 0 queries le_rfl i b⟩

theorem createBatches_partition_witness :
    (createBatches
        [⟨"q1", "t"⟩, ⟨"q2", "t"⟩, ⟨"q3", "t"⟩, ⟨"q4", "t"⟩, ⟨"q5", "t"⟩, ⟨"q6", "t"⟩]
        5).get? 0 =
      some ⟨1, [⟨"q1", "t"⟩, ⟨"q2", "t"⟩, ⟨"q3", "t"⟩, ⟨"q4", "t"⟩, ⟨"q5", "t"⟩]⟩ ∧
    0 + 1 <
      (createBatches
        [⟨"q1", "t"⟩, ⟨"q2", "t"⟩, ⟨"q3", "t"⟩, ⟨"q4", "t"⟩, ⟨"q5", "t"⟩, ⟨"q6", "t"⟩]
        5).length ∧
    (QueryBatch.mk 1
        [⟨"q1", "t"⟩, ⟨"q2", "t"⟩, ⟨"q3", "t"⟩, ⟨"q4", "t"⟩, ⟨"q5", "t"⟩]).queries.length = 5 :=
  ⟨by decide, by decide,
   (createBatches_partition
      [⟨"q1", "t"⟩, ⟨"q2", "t"⟩, ⟨"q3", "t"⟩, ⟨"q4", "t"⟩, ⟨"q5", "t"⟩, ⟨"q6", "t"⟩]).2.2.2
     0 _ (by decide) (by decide)⟩

theorem setStatus_error_message (db : QueryDB) (i s x : String) :
    (setStatus db i s x).error_message = (db x).error_message := by
  unfold setStatus
  by_cases h : x = i <;> simp [h]

theorem markFailed_apply :
    ∀ (l : List Query) (db : QueryDB) (msg x : String),
      markFailed db l msg x =
        if x ∈ l.map Query.id then ⟨"failed", some msg⟩ else db x := by
  intro l
  induction l with
  | nil => intro db msg x; simp [markFailed]
  | cons q l ih =>
      intro db msg x
      have hstep : markFailed db (q :: l) msg = markFailed (setFailed db q.id msg) l msg := rfl
      rw [hstep, ih]
      by_cases hx : x ∈ l.map Query.id
      · simp [hx]
      · by_cases hq : x = q.id
        · simp [hx, hq, setFailed]
        · simp [hx, hq, setFailed]

theorem markProcessing_apply :
    ∀ (l : List Query) (db : QueryDB) (x : String),
      markProcessing db l x =
        if x ∈ l.map Query.id then ⟨"processing", (db x).error_message⟩ else db x := by
  intro l
  induction l with
  | nil => intro db x; simp [markProcessing]
  | cons q l ih =>
      intro db x
      have hstep : markProcessing db (q :: l) =
          markProcessing (setStatus db q.id "processing") l := rfl
      rw [hstep, ih]
      by_cases hx : x ∈ l.map Query.id
      · simp [hx, setStatus_error_message]
      · by_cases hq : x = q.id
        · simp [hx, hq, setStatus]
        · simp [hx, hq, setStatus]

theorem applyBatchSuccess_not_mem :
    ∀ (l : List Query) (sts : List String) (db : QueryDB) (x : String),
      x ∉ l.map Query.id → applyBatchSuccess db l sts x = db x := by
  intro l
  induction l with
  | nil => intro sts db x _; rfl
  | cons q l ih =>
      intro sts db x h
      simp only [List.map_cons, List.mem_cons, not_or] at h
      cases sts with
      | nil => rfl
      | cons s ss =>
          have hstep : applyBatchSuccess db (q :: l) (s :: ss) =
              applyBatchSuccess (setStatus db q.id s) l ss := rfl
          rw [hstep, ih ss _ x (by simpa using h.2)]
          simp [setStatus, h.1]

theorem processSingleBatchGo_not_mem :
    ∀ (fuel attempt : Nat) (lastError : Option String) (queries : List Query)
      (att : Nat → BatchAttempt) (db : QueryDB) (x : String),
      x ∉ queries.map Query.id →
      (processSingleBatchGo queries att fuel attempt lastError db).1 x = db x := by
  intro fuel
  induction fuel with
  | zero =>
      intro attempt lastError queries att db x h
      simp only [processSingleBatchGo, markFailed_apply, h, if_false]
  | succ fuel ih =>
      intro attempt lastError queries att db x h
      simp only [processSingleBatchGo]
      cases hatt : att attempt with
      | success sts => exact applyBatchSuccess_not_mem queries sts db x h
      | failure msg => exact ih (attempt + 1) (some msg) queries att db x h

theorem processSingleBatch_not_mem (db : QueryDB) (queries : List Query)
    (att : Nat → BatchAttempt) (x : String) (h : x ∉ queries.map Query.id) :
    (processSingleBatch db queries att).1 x = db x := by
  unfold processSingleBatch
  rw [processSingleBatchGo_not_mem 3 1 none queries att _ x h,
      markProcessing_apply]
  simp [h]

theorem psbGo_failure (queries : List Query) (att : Nat → BatchAttempt)
    (fuel attempt : Nat) (lastError : Option String) (db : QueryDB)
    (msg : String) (h : att attempt = .failure msg) :
    processSingleBatchGo queries att (fuel + 1) attempt lastError db =
      processSingleBatchGo queries att fuel (attempt + 1) (some msg) db := by
  simp only [processSingleBatchGo, h]

theorem processSingleBatch_exhausted (db : QueryDB) (queries : List Query)
    (att : Nat → BatchAttempt) (e₁ e₂ e₃ : String)
    (h1 : att 1 = .failure e₁) (h2 : att 2 = .failure e₂)
    (h3 : att 3 = .failure e₃) :
    processSingleBatch db queries att =
      (markFailed (markProcessing db queries) queries e₃, .error e₃) := by
  unfold processSingleBatch
  rw [show (3 : Nat) = 2 + 1 from rfl,
      psbGo_failure queries att 2 1 none _ e₁ h1,
      show (2 : Nat) = 1 + 1 from rfl,
      psbGo_failure queries att 1 2 (some e₁) _ e₂ h2,
      show (1 : Nat) = 0 + 1 from rfl,
      psbGo_failure queries att 0 3 (some e₂) _ e₃ h3]
  rfl

theorem processRoundAux :
    ∀ (items : List (List Query × (Nat → BatchAttempt))) (db : QueryDB)
      (acc : List (Except String Unit)),
      items.foldl
        (fun acc item =>
          let r := processSingleBatch acc.1 item.1 item.2
          (r.1, acc.2 ++ [r.2]))
        (db, acc) =
      ((processRound db items).1, acc ++ (processRound db items).2) := by
  intro items
  induction items with
  | nil => intro db acc; simp [processRound]
  | cons item items ih =>
      intro db acc
      have hstep :
          processRound db (item :: items) =
            (items.foldl
              (fun acc it =>
                let r := processSingleBatch acc.1 it.1 it.2
                (r.1, acc.2 ++ [r.2]))
              ((processSingleBatch db item.1 item.2).1,
               [(processSingleBatch db item.1 item.2).2])) := rfl
      rw [List.foldl_cons, ih, hstep, ih]
      simp

theorem processRound_cons (db : QueryDB)
    (item : List Query × (Nat → BatchAttempt))
    (items : List (List Query × (Nat → BatchAttempt))) :
    processRound db (item :: items) =
      ((processRound (processSingleBatch db item.1 item.2).1 items).1,
       (processSingleBatch db item.1 item.2).2 ::
         (processRound (processSingleBatch db item.1 item.2).1 items).2) := by
  have hstep :
      processRound db (item :: items) =
        (items.foldl
          (fun acc it =>
            let r := processSingleBatch acc.1 it.1 it.2
            (r.1, acc.2 ++ [r.2]))
          ((processSingleBatch db item.1 item.2).1,
           [(processSingleBatch db item.1 item.2).2])) := rfl
  rw [hstep, processRoundAux]
  simp

theorem processRound_length :
    ∀ (items : List (List Query × (Nat → BatchAttempt))) (db : QueryDB),
      (processRound db items).2.length = items.length := by
  intro items
  induction items with
  | nil => intro db; rfl
  | cons item items ih => intro db; rw [processRound_cons]; simp [ih]

theorem processRound_not_mem :
    ∀ (items : List (List Query × (Nat → BatchAttempt))) (db : QueryDB)
      (x : String),
      (∀ item ∈ items, x ∉ item.1.map Query.id) →
      (processRound db items).1 x = db x := by
  intro items
  induction items with
  | nil => intro db x _; rfl
  | cons item items ih =>
      intro db x h
      rw [processRound_cons]
      simp only
      rw [ih _ x (fun it hit => h it (List.mem_cons_of_mem item hit)),
          processSingleBatch_not_mem _ _ _ _ (h item (List.mem_cons_self item items))]

theorem processRound_append (db : QueryDB)
    (pre items : List (List Query × (Nat → BatchAttempt))) :
    (processRound db (pre ++ items)).1 =
      (processRound (processRound db pre).1 items).1 := by
  induction pre generalizing db with
  | nil => rfl
  | cons item pre ih =>
      rw [List.cons_append, processRound_cons, processRound_cons]
      simp only
      exact ih _

/-- Claim C6: when a batch exhausts all 3 dispatch attempts, every query of
the batch is set to `failed` with the last attempt's error message and the
error is re-raised; other rows are untouched, and in a round
(`Promise.allSettled`) every batch settles on its own — the exhausted batch's
failure neither drops sibling results nor disturbs their rows. -/
theorem batch_exhaustion_isolated :
    ∀ (db : QueryDB) (queries : List Query) (att : Nat → BatchAttempt)
      (e₁ e₂ e₃ : String),
      att 1 = .failure e₁ → att 2 = .failure e₂ → att 3 = .failure e₃ →
      (processSingleBatch db queries att).2 = .error e₃ ∧
      (∀ q ∈ queries,
        (processSingleBatch db queries att).1 q.id = ⟨"failed", some e₃⟩) ∧
      (∀ x, x ∉ queries.map Query.id →
        (processSingleBatch db queries att).1 x = db x) ∧
      (∀ pre post,
        (processRound db (pre ++ (queries, att) :: post)).2.length =
          pre.length + post.length + 1 ∧
        (∀ q ∈ queries, (∀ item ∈ post, q.id ∉ item.1.map Query.id) →
          (processRound db (pre ++ (queries, att) :: post)).1 q.id =
            ⟨"failed", some e₃⟩)) := by
  intro db queries att e₁ e₂ e₃ h1 h2 h3
  have hex := processSingleBatch_exhausted db queries att e₁ e₂ e₃ h1 h2 h3
  refine ⟨by rw [hex], ?_, ?_, ?_⟩
  · intro q hq
    rw [hex]
    simp only
    rw [markFailed_apply]
    simp [List.mem_map]
    intro hall
    exact absurd (hall q hq) (by simp)
  · intro x hx
    exact processSingleBatch_not_mem db queries att x hx
  · intro pre post
    constructor
    · rw [processRound_length]; simp; omega
    · intro q hq hpost
      rw [processRound_append, processRound_cons]
      simp only
      rw [processRound_not_mem post _ q.id hpost]
      have hmem : q.id ∈ queries.map Query.id := List.mem_map_of_mem Query.id hq
      rw [processSingleBatch_exhausted _ queries att e₁ e₂ e₃ h1 h2 h3]
      simp only
      rw [markFailed_apply]
      simp [hmem]

/-- A dispatch behaviour whose three attempts all fail, the last with a
distinct message. -/
def attAllFail : Nat → BatchAttempt :=
  fun n => if n = 3 then .failure "last timeout" else .failure "earlier failure"

/-- A dispatch behaviour that succeeds at once, persisting `completed` for the
batch's queries. -/
def attAllOk : Nat → BatchAttempt := fun _ => .success ["completed", "completed"]

/-- A fresh query table with every row `pending`. -/
def dbPending : QueryDB := fun _ => ⟨"pending", none⟩

theorem batch_exhaustion_isolated_witness :
    attAllFail 1 = .failure "earlier failure" ∧
    attAllFail 2 = .failure "earlier failure" ∧
    attAllFail 3 = .failure "last timeout" ∧
    (processRound dbPending
        [([⟨"q1", "t"⟩, ⟨"q2", "t"⟩], attAllOk), ([⟨"q3", "t"⟩], attAllFail),
         ([⟨"q4", "t"⟩], attAllOk)]).1 "q3" =
      ⟨"failed", some "last timeout"⟩ :=
  ⟨rfl, rfl, rfl, by
    have h := ((batch_exhaustion_isolated dbPending [⟨"q3", "t"⟩] attAllFail
        "earlier failure" "earlier failure" "last timeout" rfl rfl rfl).2.2.2
        [([⟨"q1", "t"⟩, ⟨"q2", "t"⟩], attAllOk)]
        [([⟨"q4", "t"⟩], attAllOk)]).2
        ⟨"q3", "t"⟩ (by simp)
        (by
          intro item hit
          rcases List.mem_singleton.mp hit with rfl
          decide)
    exact h⟩

/-- Claim C10: a pending analysis with zero query rows is not completed
vacuously: `processAnalysis` raises `No queries found for analysis` and marks
the analysis `failed` before re-throwing, so an analysis this controller
completes always owns at least one query. -/
theorem no_queries_analysis_fails :
    ∀ (a : AnalysisState) (queries : List Query) (p : PipelineOutcome),
      (a.status = "pending" → queries = [] →
        processAnalysis a queries p =
          (⟨"failed", a.progress⟩, .error "No queries found for analysis")) ∧
      (a.status = "pending" →
        (processAnalysis a queries p).1.status = "completed" → queries ≠ []) := by
  intro a queries p
  constructor
  · intro hpend hq
    subst hq
    simp [processAnalysis, hpend]
  · intro hpend hdone
    intro hq
    subst hq
    simp [processAnalysis, hpend] at hdone

theorem no_queries_analysis_fails_witness :
    (AnalysisState.mk "pending" 0).status = "pending" ∧
    processAnalysis ⟨"pending", 0⟩ [] .ok =
      (⟨"failed", 0⟩, .error "No queries found for analysis") :=
  ⟨rfl, (no_queries_analysis_fails ⟨"pending", 0⟩ [] .ok).1 rfl rfl⟩

theorem progress_only_counts_completed_witness :
    (["completed", "failed"] : List String).length =
      (["completed", "pending"] : List String).length ∧
    ((["completed", "failed"] : List String).filter
        (fun s => s = "completed")).length =
      ((["completed", "pending"] : List String).filter
        (fun s => s = "completed")).length ∧
    updateAnalysisProgress ["completed", "failed"] =
      updateAnalysisProgress ["completed", "pending"] :=
  ⟨by decide, by decide,
   (progress_only_counts_completed ["completed", "failed"]).2
     ["completed", "pending"] (by decide) (by decide)⟩

end AIVis
